import Mathlib

/-!
Verification development for the Fail2Scan daemon (src/bin/daemon.js).

The JavaScript source is shallowly embedded: strings are `List Char`,
the two extraction regexes are translated into deterministic matchers
that reproduce the JS engine first-match and greedy/backtracking
behaviour, the scan queue becomes a record with explicit state-passing
operations, and the file tail becomes a pure function from file content
and cursor state to the delivered lines.
-/

/-! ## Character classes (JS semantics, ASCII range) -/

/-- JS regex digit class: 0-9 (daemon.js line 49, backslash-d). -/
def isDigitCh (c : Char) : Bool := '0' ≤ c && c ≤ '9'

/-- Hex digit class of the IPv6 regex: 0-9a-fA-F (daemon.js line 49). -/
def isHexCh (c : Char) : Bool :=
  isDigitCh c || ('a' ≤ c && c ≤ 'f') || ('A' ≤ c && c ≤ 'F')

/-- JS regex word-character class used by the word-boundary assertion:
  A-Za-z0-9 and underscore. -/
def isWordCh (c : Char) : Bool :=
  isDigitCh c || ('a' ≤ c && c ≤ 'z') || ('A' ≤ c && c ≤ 'Z') || c = '_'

/-- JS whitespace as it occurs in the artifacts handled here (ASCII part
  of the regex class backslash-s, also used by String.prototype.trim). -/
def isSpaceCh (c : Char) : Bool :=
  c = ' ' || c = '\t' || c = '\n' || c = '\r' || c = '\x0b' || c = '\x0c'

/-- Whether an optional character is a word character (absent counts as
  not a word character, as at the ends of the subject string). -/
def optWord (o : Option Char) : Bool :=
  match o with
  | some c => isWordCh c
  | none => false

/-- The JS word-boundary assertion at index `p` of `s`: exactly one
  of the character before `p` and the character at `p` is a word
  character. -/
def boundaryAt (s : List Char) (p : Nat) : Bool :=
  (match p with
   | 0 => false
   | q + 1 => optWord s[q]?) != optWord s[p]?

/-! ## IPv4 matcher

Translation of the first regex of extractIpFromLine (daemon.js line 49):
word boundary, three repetitions of one-to-three digits followed by a
dot, then one-to-three digits, then a word boundary.  Each repetition is
deterministic under backtracking: the digits consumed must be the whole
digit run (a shorter take is followed by a digit, never by the dot), and
the final group succeeds only when the whole run of at most three digits
is followed by a non-word character or the end of the string. -/

/-- One group of the IPv4 regex: one-to-three digits then a literal dot.
  Returns the consumed characters and the rest. -/
def matchOctetDot (l : List Char) : Option (List Char × List Char) :=
  let d := l.takeWhile isDigitCh
  let r := l.dropWhile isDigitCh
  if 1 ≤ d.length ∧ d.length ≤ 3 then
    match r with
    | '.' :: r2 => some (d ++ ['.'], r2)
    | _ => none
  else none

/-- The final group of the IPv4 regex: one-to-three digits followed by
  the trailing word boundary. -/
def matchOctetEnd (l : List Char) : Option (List Char) :=
  let d := l.takeWhile isDigitCh
  let r := l.dropWhile isDigitCh
  if 1 ≤ d.length ∧ d.length ≤ 3 ∧ (match r with
      | [] => true
      | c :: _ => !isWordCh c) = true then
    some d
  else none

/-- Match of the whole IPv4 pattern (without the leading boundary) as a
  prefix of `l`; returns the matched characters. -/
def v4At (l : List Char) : Option (List Char) :=
  match matchOctetDot l with
  | none => none
  | some (g1, r1) =>
    match matchOctetDot r1 with
    | none => none
    | some (g2, r2) =>
      match matchOctetDot r2 with
      | none => none
      | some (g3, r3) =>
        match matchOctetEnd r3 with
        | none => none
        | some d4 => some (g1 ++ g2 ++ g3 ++ d4)

/-- IPv4 pattern attempt at index `p` of `s`, including the leading
  word-boundary assertion. -/
def v4AtPos (s : List Char) (p : Nat) : Option (List Char) :=
  if boundaryAt s p then v4At (s.drop p) else none

/-- First-match scan of the JS regex engine: try indices in increasing
  order, return the first successful match. -/
def scanFirst (f : Nat → Option (List Char)) : Nat → Nat → Option (List Char)
  | _, 0 => none
  | p, fuel + 1 =>
    match f p with
    | some m => some m
    | none => scanFirst f (p + 1) fuel

/-- line.match with the IPv4 regex: first match over all start indices. -/
def findV4 (s : List Char) : Option (List Char) :=
  scanFirst (v4AtPos s) 0 (s.length + 1)

/-! ## IPv6 matcher

Translation of the second regex of extractIpFromLine (daemon.js
line 49): word boundary, two-to-seven repetitions of zero-to-four hex
digits followed by a colon, then zero-to-four hex digits, then a word
boundary.  Each repetition is again deterministic (the hex digits taken
must be the whole run, else the next character is a hex digit and not
the colon), but the repetition count and the final hex count backtrack:
the engine prefers more groups, and in the final part it prefers the
whole run and falls back to consuming nothing, which succeeds exactly
when the character after the last colon is a word character. -/

/-- One group of the IPv6 regex: zero-to-four hex digits then a colon. -/
def matchHexColon (l : List Char) : Option (List Char × List Char) :=
  let h := l.takeWhile isHexCh
  let r := l.dropWhile isHexCh
  if h.length ≤ 4 then
    match r with
    | ':' :: r2 => some (h ++ [':'], r2)
    | _ => none
  else none

/-- The final part of the IPv6 regex: zero-to-four hex digits then the
  trailing word boundary, with JS backtracking preference.  The
  character before `l` is always the colon ending the previous group,
  a non-word character, so consuming nothing succeeds exactly when the
  next character is a word character. -/
def v6Final (l : List Char) : Option (List Char) :=
  let h := l.takeWhile isHexCh
  let r := l.dropWhile isHexCh
  if 1 ≤ h.length ∧ h.length ≤ 4 ∧ (match r with
      | [] => true
      | c :: _ => !isWordCh c) = true then
    some h
  else
    match l with
    | c :: _ => if isWordCh c then some [] else none
    | [] => none

/-- Greedy matching of the group repetition with backtracking over the
  group count.  `g` is the text consumed so far and `rem` the number of
  further groups still allowed (`rem = 7 - m` after `m` groups, so the
  final part is allowed once `rem ≤ 5`, that is after at least two
  groups). -/
def tryGroups (g : List Char) (l : List Char) : Nat → Option (List Char)
  | 0 => (v6Final l).map (g ++ ·)
  | rem + 1 =>
    match (match matchHexColon l with
           | some (x, r) => tryGroups (g ++ x) r rem
           | none => none) with
    | some res => some res
    | none => if rem ≤ 4 then (v6Final l).map (g ++ ·) else none

/-- IPv6 pattern attempt at index `p` of `s`, including the leading
  word-boundary assertion. -/
def v6AtPos (s : List Char) (p : Nat) : Option (List Char) :=
  if boundaryAt s p then tryGroups [] (s.drop p) 7 else none

/-- line.match with the IPv6 regex: first match over all start indices. -/
def findV6 (s : List Char) : Option (List Char) :=
  scanFirst (v6AtPos s) 0 (s.length + 1)

/-- extractIpFromLine (daemon.js line 49): return the first IPv4 match
  when there is one, otherwise the first IPv6 match, otherwise nothing. -/
def extractIpFromLine (s : List Char) : Option (List Char) :=
  match findV4 s with
  | some m => some m
  | none => findV6 s

/-! ## Claim-level pattern predicates

These follow the words of the specification, not the code: they are the
yardstick the claims measure extractIpFromLine against. -/

/-- `begWith s t`: `t` is a prefix of `s`. -/
def begWith : List Char → List Char → Bool
  | _, [] => true
  | [], _ :: _ => false
  | c :: r, d :: q => c = d && begWith r q

/-- `containsSeg s t`: `t` occurs contiguously inside `s`. -/
def containsSeg : List Char → List Char → Bool
  | s, t =>
    begWith s t ||
      match s with
      | [] => false
      | _ :: r => containsSeg r t

/-- The claim wording of IPv4-looking: the whole string is four
  dot-separated groups of one-to-three digits. -/
def isIPv4Shape (l : List Char) : Bool :=
  match matchOctetDot l with
  | none => false
  | some (_, r1) =>
    match matchOctetDot r1 with
    | none => false
    | some (_, r2) =>
      match matchOctetDot r2 with
      | none => false
      | some (_, r3) =>
        r3.all isDigitCh && 1 ≤ r3.length && r3.length ≤ 3

/-- Group chain for the specification wording of IPv6-looking: consume
  up to `k` hex-colon groups, counting them. -/
def chainHexColon : List Char → Nat → Nat × List Char
  | l, 0 => (0, l)
  | l, k + 1 =>
    match matchHexColon l with
    | some (_, r) =>
      let n := chainHexColon r k
      (n.1 + 1, n.2)
    | none => (0, l)

/-- The claim wording of IPv6-looking: the whole string is two-to-seven
  colon-terminated groups of at most four hex digits followed by at most
  four hex digits. -/
def isIPv6Shape (l : List Char) : Bool :=
  let n := chainHexColon l 7
  2 ≤ n.1 && n.2.all isHexCh && n.2.length ≤ 4

/-- Loose IPv4 quad occurrence without any word-boundary requirement:
  the claim reading of contains an IPv4-looking substring. -/
def quadAt (l : List Char) : Bool :=
  match matchOctetDot l with
  | none => false
  | some (_, r1) =>
    match matchOctetDot r1 with
    | none => false
    | some (_, r2) =>
      match matchOctetDot r2 with
      | none => false
      | some (_, r3) => 1 ≤ (r3.takeWhile isDigitCh).length

/-- Whether some position of `s` carries a loose IPv4 quad. -/
def hasQuad (s : List Char) : Bool :=
  (List.range (s.length + 1)).any (fun p => quadAt (s.drop p))

/-! ## Ban-line filter -/

/-- Case-insensitive word Ban at index `p` (regex at daemon.js
  line 105). -/
def banAt (s : List Char) (p : Nat) : Bool :=
  boundaryAt s p &&
    (match s.drop p with
     | c1 :: c2 :: c3 :: r =>
       (c1 = 'B' || c1 = 'b') && (c2 = 'a' || c2 = 'A') &&
         (c3 = 'n' || c3 = 'N') &&
         (match r with
          | [] => true
          | c :: _ => !isWordCh c)
     | _ => false)

/-- BAN_RE.test: some index of the line carries the word Ban. -/
def banRe (s : List Char) : Bool :=
  (List.range (s.length + 1)).any (banAt s)

/-! ## Artifact parsing (performScan, daemon.js line 65) -/

/-- String.prototype.split with the separator newline-or-CRLF, as in
  nmapTxt.split at daemon.js line 65.  A carriage return is consumed
  only when a newline follows it. -/
def splitCRLF : List Char → List (List Char)
  | [] => [[]]
  | '\r' :: '\n' :: r => [] :: splitCRLF r
  | '\n' :: r => [] :: splitCRLF r
  | c :: r =>
    match splitCRLF r with
    | [] => [[c]]
    | l :: ls => (c :: l) :: ls

/-- String.prototype.trim on a line: strip whitespace at both ends. -/
def trimJS (l : List Char) : List Char :=
  ((l.dropWhile isSpaceCh).reverse.dropWhile isSpaceCh).reverse

/-- Test of the open-port regex (daemon.js line 65): the line starts
  with digits, a slash, tcp, whitespace, then the word open.  The digit
  and whitespace repetitions are deterministic under backtracking. -/
def portLine (l : List Char) : Bool :=
  let d := l.takeWhile isDigitCh
  let r := l.dropWhile isDigitCh
  1 ≤ d.length &&
    (match r with
     | '/' :: 't' :: 'c' :: 'p' :: r2 =>
       let w := r2.takeWhile isSpaceCh
       let r3 := r2.dropWhile isSpaceCh
       1 ≤ w.length &&
         (match r3 with
          | 'o' :: 'p' :: 'e' :: 'n' :: _ => true
          | _ => false)
     | _ => false)

/-! ## performScan summary (daemon.js lines 52-68)

The summary record as performScan writes it.  External effects are
abstracted as inputs: the nmap child either closes with an exit code or
fails to spawn (the promise of spawnNmap resolves with the code or
rejects), and the later re-read of the nmap artifact either yields its
text or fails.  performScan sets cmds.nmap.ok to true whenever the
await returns, regardless of the exit code the promise carries, and to
false only when spawning threw. -/

/-- The value spawnNmap resolves with: ok is exit-code-zero
  (daemon.js line 52). -/
def spawnNmapOk (code : Int) : Bool := code = 0

structure ScanSummary where
  ip : String
  nmapOk : Bool
  digOk : Bool
  whoisOk : Bool
  open_ports : List (List Char)
  deriving DecidableEq

/-- The summary performScan builds: per-tool outcomes and the derived
  open-port list, parsed from the artifact even when the nmap step is
  recorded as failed, and empty when the artifact cannot be read. -/
def performScanModel (ip : String) (nmapSpawn : Except String Int)
    (digOk whoisOk : Bool) (artifact : Option (List Char)) : ScanSummary :=
  let nmapRecorded : Bool :=
    match nmapSpawn with
    | Except.ok _ => true
    | Except.error _ => false
  let ports : List (List Char) :=
    match artifact with
    | some txt => ((splitCRLF txt).filter portLine).map trimJS
    | none => []
  { ip := ip, nmapOk := nmapRecorded, digOk := digOk, whoisOk := whoisOk,
    open_ports := ports }

/-! ## File tail (FileTail, daemon.js lines 106-112) -/

structure TailState where
  pos : Nat
  buf : List Char
  deriving DecidableEq

/-- Split the accumulated buffer at newlines: the complete lines in
  order, and the trailing partial line that stays buffered. -/
def splitBuf : List Char → List (List Char) × List Char
  | [] => ([], [])
  | c :: r =>
    let p := splitBuf r
    if c = '\n' then ([] :: p.1, p.2)
    else
      match p.1 with
      | [] => ([], c :: p.2)
      | l :: ls => ((c :: l) :: ls, p.2)

/-- FileTail._readNew (daemon.js line 110) on current file content:
  reset the offset to zero when the file shrank below it, do nothing
  when nothing is new, otherwise read from the offset to the end,
  append to the partial-line buffer, deliver every complete line whose
  trimmed form is nonempty, and advance the offset to the file size. -/
def readNew (content : List Char) (st : TailState) : TailState × List (List Char) :=
  let size := content.length
  let pos := if size < st.pos then 0 else st.pos
  if size = pos then ({ st with pos := pos }, [])
  else
    let p := splitBuf (st.buf ++ content.drop pos)
    (⟨size, p.2⟩, p.1.filter (fun l => !(trimJS l).isEmpty))

/-! ## Scan queue (ScanQueue, daemon.js lines 72-97)

The persistent state is the seen set and the retryAfter map; saveState
snapshots both to the disk field.  The running counter is modelled as
the list of started-but-unfinished addresses, so that a completion
names its job.  _next dispatches, via its setImmediate cascade, queued
addresses while the running count is below the concurrency limit; a
falsy (empty) shifted value stops the cascade. -/

def RESCAN_TTL_SEC : Nat := 60 * 60

structure PersistState where
  seen : List String
  retryAfter : List (String × Nat)
  deriving DecidableEq

structure ScanQueue where
  conc : Nat
  runningJobs : List String
  q : List String
  seen : List String
  tmpCache : List String
  retryAfter : List (String × Nat)
  disk : PersistState
  deriving DecidableEq

/-- STATE.retryAfter lookup with the or-zero default of daemon.js
  line 75. -/
def raLookup (m : List (String × Nat)) (ip : String) : Nat :=
  match m.find? (fun e => e.1 == ip) with
  | some e => e.2
  | none => 0

/-- Assignment into the retryAfter object. -/
def raInsert (m : List (String × Nat)) (ip : String) (v : Nat) :
    List (String × Nat) :=
  if (m.find? (fun e => e.1 == ip)).isSome then
    m.map (fun e => if e.1 == ip then (ip, v) else e)
  else m ++ [(ip, v)]

/-- Set.add: append when absent. -/
def setAdd (l : List String) (x : String) : List String :=
  if x ∈ l then l else l ++ [x]

/-- saveState (daemon.js line 45): snapshot seen and retryAfter to the
  state file. -/
def saveQ (s : ScanQueue) : ScanQueue :=
  { s with disk := ⟨s.seen, s.retryAfter⟩ }

/-- The dispatch loop reached through _next and its setImmediate
  cascade: while the running count is below the limit, shift the head
  of the pending list and start it; a shifted falsy (empty) address
  stops the cascade.  Returns the new running list, the remaining
  pending list and the addresses started, in order. -/
def dispatchList (conc : Nat) (run : List String) :
    List String → List String × List String × List String
  | [] => (run, [], [])
  | ip :: rest =>
    if conc ≤ run.length then (run, ip :: rest, [])
    else if ip = "" then (run, rest, [])
    else
      let p := dispatchList conc (run ++ [ip]) rest
      (p.1, p.2.1, ip :: p.2.2)

/-- All dispatching that one _next entry point eventually performs. -/
def ScanQueue.dispatch (s : ScanQueue) : ScanQueue × List String :=
  let p := dispatchList s.conc s.runningJobs s.q
  ({ s with runningJobs := p.1, q := p.2.1 }, p.2.2)

/-- ScanQueue.push (daemon.js lines 74-80): admission against the seen
  set with its TTL condition and against tmpCache, then delete-and-add
  into seen, save, append to the pending list, cache, and dispatch.
  Returns the new state and the scans started now. -/
def ScanQueue.push (ip : String) (now : Nat) (s : ScanQueue) :
    ScanQueue × List String :=
  let next := raLookup s.retryAfter ip
  if (ip ∈ s.seen ∧ now < next) ∨ ip ∈ s.tmpCache then (s, [])
  else
    let seen1 := if ip ∈ s.seen ∧ next ≤ now then s.seen.erase ip else s.seen
    let s1 := saveQ { s with seen := setAdd seen1 ip }
    ScanQueue.dispatch
      { s1 with q := s1.q ++ [ip], tmpCache := setAdd s1.tmpCache ip }

/-- The finally block of the job started in _next (daemon.js
  lines 88-93): record retryAfter, save, remove the address from seen
  and tmpCache, release the running slot, dispatch again.  Returns the
  new state and the scans started now. -/
def ScanQueue.complete (ip : String) (now : Nat) (s : ScanQueue) :
    ScanQueue × List String :=
  let s1 := saveQ { s with retryAfter := raInsert s.retryAfter ip (now + RESCAN_TTL_SEC) }
  ScanQueue.dispatch
    { s1 with seen := s1.seen.erase ip, tmpCache := s1.tmpCache.erase ip,
              runningJobs := s1.runningJobs.erase ip }

/-- A queue as constructed at startup with a fresh (missing or corrupt)
  state file. -/
def initQueue (conc : Nat) : ScanQueue :=
  ⟨conc, [], [], [], [], [], ⟨[], []⟩⟩

/-- The tail callback (daemon.js line 113): require the Ban marker,
  extract an address, enqueue it. -/
def onLineModel (now : Nat) (line : List Char) (s : ScanQueue) :
    ScanQueue × List String :=
  if banRe line then
    match extractIpFromLine line with
    | some ip => ScanQueue.push (String.mk ip) now s
    | none => (s, [])
  else (s, [])

/-! ## Concrete inputs used by the closed theorems -/

/-- A line that contains the IPv4-looking text 1.2.3.4 (directly after
  a word character) and the IPv6-looking text fe80::1. -/
def cexLine : List Char := "id1.2.3.4 fe80::1".toList

/-- A ban line whose only colon-separated token is a time of day. -/
def timeLine : List Char := "Ban user at 10:00:00".toList

/-- Old content of the tailed file, ending in a newline-less fragment. -/
def c9old : List Char := "Ban 10.0.0.5 xy".toList

/-- Replacement content after truncation, one complete line. -/
def c9new : List Char := "Ban 7.7.7.7\n".toList

/-- The state after pushing one address at time 0 into a fresh queue of
  concurrency one and completing its scan at time 10. -/
def c1s2 : ScanQueue :=
  (ScanQueue.complete "1.2.3.4" 10
    (ScanQueue.push "1.2.3.4" 0 (initQueue 1)).1).1

/-- Same trace for the persistence claim. -/
def c4s2 : ScanQueue :=
  (ScanQueue.complete "5.6.7.8" 10
    (ScanQueue.push "5.6.7.8" 0 (initQueue 1)).1).1

/-- A queue mid-run: limit two, one scan running, three pending. -/
def w8s : ScanQueue :=
  ⟨2, ["9.9.9.9"], ["1.1.1.1", "2.2.2.2", "3.3.3.3"],
   ["9.9.9.9", "1.1.1.1", "2.2.2.2", "3.3.3.3"],
   ["9.9.9.9", "1.1.1.1", "2.2.2.2", "3.3.3.3"], [],
   ⟨["9.9.9.9", "1.1.1.1", "2.2.2.2", "3.3.3.3"], []⟩⟩

/-- The claim wording of four dot-separated digit groups, as a
  proposition: a group of one-to-three digits. -/
def digitGroup (d : List Char) : Prop :=
  (∀ c ∈ d, isDigitCh c = true) ∧ 1 ≤ d.length ∧ d.length ≤ 3

/-- The claim wording of an IPv4-looking string, as a proposition. -/
def V4Shaped (m : List Char) : Prop :=
  ∃ d1 d2 d3 d4, digitGroup d1 ∧ digitGroup d2 ∧ digitGroup d3 ∧
    digitGroup d4 ∧ m = d1 ++ '.' :: (d2 ++ '.' :: (d3 ++ '.' :: d4))

/-! ## Lemmas about the first-match scan -/

theorem scanFirst_of_none (f : Nat → Option (List Char)) :
    ∀ (fuel p : Nat), (∀ q, p ≤ q → q < p + fuel → f q = none) →
      scanFirst f p fuel = none := by
  intro fuel
  induction fuel with
  | zero => intro p _; rfl
  | succ fu ih =>
    intro p h
    have hp : f p = none := h p le_rfl (by omega)
    simp only [scanFirst, hp]
    exact ih (p + 1) (fun q h1 h2 => h q (by omega) (by omega))

theorem scanFirst_of_first (f : Nat → Option (List Char)) (m : List Char) :
    ∀ (fuel p q : Nat), f q = some m → (∀ r, p ≤ r → r < q → f r = none) →
      p ≤ q → q < p + fuel → scanFirst f p fuel = some m := by
  intro fuel
  induction fuel with
  | zero => intro p q _ _ _ h4; omega
  | succ fu ih =>
    intro p q hq hmin hpq hlt
    by_cases hep : p = q
    · subst hep; simp only [scanFirst, hq]
    · have hplt : p < q := lt_of_le_of_ne hpq hep
      have hfp : f p = none := hmin p le_rfl hplt
      simp only [scanFirst, hfp]
      exact ih (p + 1) q hq (fun r h1 h2 => hmin r (by omega) h2)
        (by omega) (by omega)

/-! ## Lemmas about the IPv4 and IPv6 matchers -/

theorem v4AtPos_of_length_lt {s : List Char} {p : Nat} (h : s.length < p) :
    v4AtPos s p = none := by
  cases p with
  | zero => omega
  | succ q =>
    have h1 : s[q]? = none := by rw [List.getElem?_eq_none]; omega
    have h2 : s[q + 1]? = none := by rw [List.getElem?_eq_none]; omega
    simp [v4AtPos, boundaryAt, h1, h2, optWord]

theorem v6AtPos_of_length_lt {s : List Char} {p : Nat} (h : s.length < p) :
    v6AtPos s p = none := by
  cases p with
  | zero => omega
  | succ q =>
    have h1 : s[q]? = none := by rw [List.getElem?_eq_none]; omega
    have h2 : s[q + 1]? = none := by rw [List.getElem?_eq_none]; omega
    simp [v6AtPos, boundaryAt, h1, h2, optWord]

theorem findV4_of_first {s : List Char} {p : Nat} {m : List Char}
    (h : v4AtPos s p = some m) (hmin : ∀ q, q < p → v4AtPos s q = none) :
    findV4 s = some m := by
  have hps : p ≤ s.length := by
    by_contra hc
    push_neg at hc
    rw [v4AtPos_of_length_lt hc] at h
    exact Option.noConfusion h
  exact scanFirst_of_first (v4AtPos s) m (s.length + 1) 0 p h
    (fun r _ hr => hmin r hr) (Nat.zero_le p) (by omega)

theorem findV4_of_none {s : List Char} (h : ∀ p, v4AtPos s p = none) :
    findV4 s = none :=
  scanFirst_of_none (v4AtPos s) (s.length + 1) 0 (fun q _ _ => h q)

theorem findV6_of_first {s : List Char} {p : Nat} {m : List Char}
    (h : v6AtPos s p = some m) (hmin : ∀ q, q < p → v6AtPos s q = none) :
    findV6 s = some m := by
  have hps : p ≤ s.length := by
    by_contra hc
    push_neg at hc
    rw [v6AtPos_of_length_lt hc] at h
    exact Option.noConfusion h
  exact scanFirst_of_first (v6AtPos s) m (s.length + 1) 0 p h
    (fun r _ hr => hmin r hr) (Nat.zero_le p) (by omega)

theorem matchOctetDot_inv {l g r : List Char}
    (h : matchOctetDot l = some (g, r)) :
    digitGroup (l.takeWhile isDigitCh) ∧ g = l.takeWhile isDigitCh ++ ['.'] := by
  simp only [matchOctetDot] at h
  split at h
  case isTrue hc =>
    split at h
    case _ r2 heq =>
      refine ⟨⟨fun c hc2 => List.mem_takeWhile_imp hc2, hc.1, hc.2⟩, ?_⟩
      exact (Prod.mk.injEq _ _ _ _ ▸ (Option.some.injEq _ _ ▸ h)).1.symm
    case _ => exact absurd h (by simp)
  case isFalse => exact absurd h (by simp)

theorem matchOctetEnd_inv {l m : List Char} (h : matchOctetEnd l = some m) :
    digitGroup m := by
  simp only [matchOctetEnd] at h
  split at h
  case isTrue hc =>
    have hm : m = l.takeWhile isDigitCh := (Option.some.injEq _ _ ▸ h).symm
    subst hm
    exact ⟨fun c hc2 => List.mem_takeWhile_imp hc2, hc.1, hc.2.1⟩
  case isFalse => exact absurd h (by simp)

theorem v4At_shape {l m : List Char} (h : v4At l = some m) : V4Shaped m := by
  simp only [v4At] at h
  split at h
  case _ => exact absurd h (by simp)
  case _ g1 r1 h1 =>
    split at h
    case _ => exact absurd h (by simp)
    case _ g2 r2 h2 =>
      split at h
      case _ => exact absurd h (by simp)
      case _ g3 r3 h3 =>
        split at h
        case _ => exact absurd h (by simp)
        case _ d4 h4 =>
          obtain ⟨hg1, he1⟩ := matchOctetDot_inv h1
          obtain ⟨hg2, he2⟩ := matchOctetDot_inv h2
          obtain ⟨hg3, he3⟩ := matchOctetDot_inv h3
          have hm : m = g1 ++ g2 ++ g3 ++ d4 := (Option.some.injEq _ _ ▸ h).symm
          refine ⟨_, _, _, d4, hg1, hg2, hg3, matchOctetEnd_inv h4, ?_⟩
          subst hm he1 he2 he3
          simp

theorem V4Shaped_no_colon {m : List Char} (h : V4Shaped m) : ':' ∉ m := by
  obtain ⟨d1, d2, d3, d4, h1, h2, h3, h4, hm⟩ := h
  subst hm
  intro hmem
  have hdig : ∀ d : List Char, (∀ c ∈ d, isDigitCh c = true) → ':' ∉ d := by
    intro d hd hc
    have := hd ':' hc
    simp [isDigitCh] at this
  simp only [List.mem_append, List.mem_cons] at hmem
  rcases hmem with h' | h' | h' | h' | h' | h' | h'
  · exact hdig d1 h1.1 h'
  · exact absurd h' (by decide)
  · exact hdig d2 h2.1 h'
  · exact absurd h' (by decide)
  · exact hdig d3 h3.1 h'
  · exact absurd h' (by decide)
  · exact hdig d4 h4.1 h'

/-! ## Lemmas about the tail buffer and the dispatch loop -/

theorem splitBuf_line {l : List Char} (hnl : '\n' ∉ l) (r : List Char) :
    splitBuf (l ++ '\n' :: r) = (l :: (splitBuf r).1, (splitBuf r).2) := by
  induction l with
  | nil => simp [splitBuf]
  | cons c cl ih =>
    have hc : ¬c = '\n' := fun he => hnl (he ▸ List.mem_cons_self c cl)
    have hcl : '\n' ∉ cl := fun hm => hnl (List.mem_cons_of_mem c hm)
    simp [splitBuf, ih hcl, hc]

theorem dispatchList_take_drop (conc : Nat) :
    ∀ (q run : List String), "" ∉ q → run.length ≤ conc →
      dispatchList conc run q =
        (run ++ q.take (conc - run.length), q.drop (conc - run.length),
         q.take (conc - run.length)) := by
  intro q
  induction q with
  | nil => intro run _ _; simp [dispatchList]
  | cons ip rest ih =>
    intro run hq hrun
    by_cases hc : conc ≤ run.length
    · have h0 : conc - run.length = 0 := Nat.sub_eq_zero_of_le hc
      simp [dispatchList, hc, h0]
    · push_neg at hc
      have hip : ¬ip = "" := fun he => hq (he ▸ List.mem_cons_self ip rest)
      have hrest : "" ∉ rest := fun hm => hq (List.mem_cons_of_mem ip hm)
      have harith : conc - run.length = (conc - (run.length + 1)) + 1 := by omega
      have hlen : (run ++ [ip]).length ≤ conc := by simp; omega
      simp only [dispatchList, if_neg (Nat.not_le.mpr hc), if_neg hip,
        ih (run ++ [ip]) hrest hlen, harith, List.take_succ_cons,
        List.drop_succ_cons, List.append_assoc, List.singleton_append,
        List.length_append, List.length_singleton]

/-! ## Claim theorems -/

/-- C6 (amended): for every line at which the IPv4 pattern of
  extractIpFromLine matches at some index — a word-boundary-delimited
  occurrence of four dot-separated one-to-three-digit groups — with no
  match at any earlier index, extract returns exactly that first IPv4
  match, which is IPv4-shaped and contains no colon, so it is never the
  IPv6 match; and on a line where the IPv4 pattern matches nowhere,
  extract returns the result of the IPv6 scan (the first IPv6-looking
  match, or nothing). -/
theorem extract_prefers_v4 (s : List Char) :
    (∀ p m, v4AtPos s p = some m → (∀ q, q < p → v4AtPos s q = none) →
      extractIpFromLine s = some m ∧ V4Shaped m ∧ ':' ∉ m) ∧
    ((∀ p, v4AtPos s p = none) →
      extractIpFromLine s = findV6 s ∧
      ∀ p m, v6AtPos s p = some m → (∀ q, q < p → v6AtPos s q = none) →
        extractIpFromLine s = some m) := by
  constructor
  · intro p m h hmin
    have hf : findV4 s = some m := findV4_of_first h hmin
    have hshape : V4Shaped m := by
      have hb : boundaryAt s p = true := by
        by_contra hb
        simp [v4AtPos, hb] at h
      have : v4At (s.drop p) = some m := by
        simpa [v4AtPos, hb] using h
      exact v4At_shape this
    exact ⟨by simp [extractIpFromLine, hf], hshape, V4Shaped_no_colon hshape⟩
  · intro hnone
    have hf : findV4 s = none := findV4_of_none hnone
    have he : extractIpFromLine s = findV6 s := by
      simp [extractIpFromLine, hf]
    exact ⟨he, fun p m h hmin => by rw [he]; exact findV6_of_first h hmin⟩

/-- C6 counterexample to the claim as stated: this line contains the
  IPv4-looking substring 1.2.3.4 (in the claim wording: four
  dot-separated one-to-three-digit groups) and the IPv6-looking
  substring fe80::1, yet extract returns the IPv6 one, because the
  IPv4 occurrence sits directly after a word character and the IPv4
  regex requires a word boundary. -/
theorem extract_returns_v6_despite_v4_text :
    containsSeg cexLine ("1.2.3.4".toList) = true ∧
    isIPv4Shape ("1.2.3.4".toList) = true ∧
    containsSeg cexLine ("fe80::1".toList) = true ∧
    isIPv6Shape ("fe80::1".toList) = true ∧
    extractIpFromLine cexLine = some ("fe80::1".toList) ∧
    isIPv4Shape ("fe80::1".toList) = false := by decide

/-- Witness for extract_prefers_v4 at a concrete line holding both an
  IPv4 and an IPv6 literal. -/
theorem extract_prefers_v4_witness :
    extractIpFromLine ("1.2.3.4 and fe80::1".toList) =
      some ("1.2.3.4".toList) :=
  ((extract_prefers_v4 ("1.2.3.4 and fe80::1".toList)).1 0 ("1.2.3.4".toList)
    (by decide) (fun q hq => absurd hq (Nat.not_lt_zero q))).1

/-- C1: the code violates this claim.  After push at time 0 and
  completion at time 10 the retry-after timestamp is 3610 and the
  address has left the in-flight set; a push at time 20, well before
  the timestamp, is admitted, changes the state and starts a second
  scan, because the admission test rejects only an address still in
  the seen set. -/
theorem push_ttl_not_enforced :
    raLookup c1s2.retryAfter "1.2.3.4" = 3610 ∧
    "1.2.3.4" ∉ c1s2.seen ∧ (20 : Nat) < 3610 ∧
    (ScanQueue.push "1.2.3.4" 20 c1s2).2 = ["1.2.3.4"] ∧
    (ScanQueue.push "1.2.3.4" 20 c1s2).1 ≠ c1s2 := by decide

/-- C2: a second enqueue of the same address before its first scan
  completes is a no-op, even with capacity for two scans and no
  retry-after record yet: from a fresh queue of concurrency two, the
  first push starts exactly one job and the second push returns the
  state unchanged with nothing started, because the address is held in
  tmpCache until completion. -/
theorem push_dedup_inflight (ip : String) (t0 t1 : Nat) (hip : ip ≠ "") :
    (ScanQueue.push ip t0 (initQueue 2)).2 = [ip] ∧
    ScanQueue.push ip t1 (ScanQueue.push ip t0 (initQueue 2)).1 =
      ((ScanQueue.push ip t0 (initQueue 2)).1, []) := by
  have h1 : ScanQueue.push ip t0 (initQueue 2) =
      (⟨2, [ip], [], [ip], [ip], [], ⟨[ip], []⟩⟩, [ip]) := by
    simp [ScanQueue.push, initQueue, raLookup, setAdd, saveQ,
      ScanQueue.dispatch, dispatchList, hip]
  rw [h1]
  refine ⟨rfl, ?_⟩
  simp [ScanQueue.push, raLookup]

/-- Witness for push_dedup_inflight at the spec scenario address. -/
theorem push_dedup_inflight_witness :
    (ScanQueue.push "203.0.113.7" 0 (initQueue 2)).2 = ["203.0.113.7"] ∧
    ScanQueue.push "203.0.113.7" 1 (ScanQueue.push "203.0.113.7" 0 (initQueue 2)).1 =
      ((ScanQueue.push "203.0.113.7" 0 (initQueue 2)).1, []) :=
  push_dedup_inflight "203.0.113.7" 0 1 (by decide)

/-- C3: the code violates this claim.  spawnNmap itself resolves with
  ok equal to exit-code-zero, but performScan discards that value and
  records cmds.nmap.ok as true whenever the child closed at all: with
  exit code one the recorded outcome is still true. -/
theorem nmap_ok_ignores_exit_code :
    spawnNmapOk 1 = false ∧ spawnNmapOk 0 = true ∧
    (performScanModel "10.0.0.5" (Except.ok 1) true true none).nmapOk = true ∧
    (performScanModel "10.0.0.5" (Except.error "spawn nmap ENOENT") true true
      none).nmapOk = false := by decide

/-- C4 (amended): the enqueue-time addition to the in-flight set and
  the completion-time retry-after record are each followed by a
  synchronous save, but the completion-time removal from the in-flight
  set happens after that save, so the persisted state still holds the
  address in the in-flight set after a completion. -/
theorem persist_saved_per_mutation (s : ScanQueue) (ip : String) (now : Nat)
    (hadm : ¬((ip ∈ s.seen ∧ now < raLookup s.retryAfter ip) ∨ ip ∈ s.tmpCache)) :
    (ScanQueue.push ip now s).1.disk =
      ⟨(ScanQueue.push ip now s).1.seen, (ScanQueue.push ip now s).1.retryAfter⟩ ∧
    (ScanQueue.complete ip now s).1.disk.retryAfter =
      (ScanQueue.complete ip now s).1.retryAfter ∧
    (ScanQueue.complete ip now s).1.disk.seen = s.seen ∧
    (ScanQueue.complete ip now s).1.seen = s.seen.erase ip := by
  refine ⟨?_, ?_, ?_, ?_⟩
  · simp [ScanQueue.push, hadm, saveQ, ScanQueue.dispatch]
  · simp [ScanQueue.complete, saveQ, ScanQueue.dispatch]
  · simp [ScanQueue.complete, saveQ, ScanQueue.dispatch]
  · simp [ScanQueue.complete, saveQ, ScanQueue.dispatch]

/-- C4 counterexample to the claim as stated: after a push at time 0
  and a completion at time 10 no mutation is in progress, yet the
  in-memory in-flight set is empty while the persisted one still holds
  the address — the completion-time removal was not followed by a
  save. -/
theorem persist_removal_not_saved :
    c4s2.seen = [] ∧ c4s2.disk.seen = ["5.6.7.8"] ∧
    c4s2.seen ≠ c4s2.disk.seen := by decide

/-- Witness for persist_saved_per_mutation on a fresh queue. -/
theorem persist_saved_per_mutation_witness :
    (ScanQueue.push "8.8.8.8" 0 (initQueue 1)).1.disk =
      ⟨(ScanQueue.push "8.8.8.8" 0 (initQueue 1)).1.seen,
       (ScanQueue.push "8.8.8.8" 0 (initQueue 1)).1.retryAfter⟩ :=
  (persist_saved_per_mutation (initQueue 1) "8.8.8.8" 0 (by decide)).1

/-- C5: the summary open-port list is exactly the trimmed matching
  lines of the port-scan artifact in file order (a filter of the split
  lines, hence a sublist, mapped through trim), it does not depend on
  the recorded nmap outcome, and it is empty when the artifact cannot
  be read. -/
theorem open_ports_exact (ip : String) (sp sp2 : Except String Int)
    (dg wh : Bool) (t : List Char) :
    (performScanModel ip sp dg wh none).open_ports = [] ∧
    (performScanModel ip sp dg wh (some t)).open_ports =
      ((splitCRLF t).filter portLine).map trimJS ∧
    (performScanModel ip sp dg wh (some t)).open_ports =
      (performScanModel ip sp2 dg wh (some t)).open_ports ∧
    List.Sublist ((splitCRLF t).filter portLine) (splitCRLF t) ∧
    (∀ x, x ∈ (performScanModel ip sp dg wh (some t)).open_ports ↔
      ∃ l, l ∈ splitCRLF t ∧ portLine l = true ∧ x = trimJS l) := by
    refine ⟨rfl, rfl, rfl, List.filter_sublist _, ?_⟩
    intro x
    simp only [performScanModel, List.mem_map, List.mem_filter]
    constructor
    · rintro ⟨l, ⟨hmem, hport⟩, hx⟩
      exact ⟨l, hmem, hport, hx.symm⟩
    · rintro ⟨l, hmem, hport, hx⟩
      exact ⟨l, ⟨hmem, hport⟩, hx.symm⟩

/-- C7: truncation handling of the tail.  When the file is smaller
  than the recorded offset, one read pass behaves exactly as with the
  offset reset to zero; a notification after truncation to zero resets
  the state and delivers nothing; once one complete ban line has been
  appended the next pass delivers exactly that line and advances the
  offset; a further pass on the same content delivers nothing more. -/
theorem fileTail_truncation_reset (content : List Char) (st : TailState)
    (p0 : Nat) (line : List Char) (hsz : content.length < st.pos)
    (hp0 : 0 < p0) (hnl : '\n' ∉ line) (htr : (trimJS line).isEmpty = false) :
    readNew content st = readNew content ⟨0, st.buf⟩ ∧
    readNew [] ⟨p0, []⟩ = (⟨0, []⟩, []) ∧
    readNew (line ++ ['\n']) ⟨0, []⟩ = (⟨line.length + 1, []⟩, [line]) ∧
    (readNew (line ++ ['\n']) ⟨line.length + 1, []⟩).2 = [] := by
  refine ⟨?_, ?_, ?_, ?_⟩
  · simp [readNew, hsz]
  · simp [readNew, hp0]
  · have : splitBuf (line ++ '\n' :: ([] : List Char)) = ([line], []) := by
      rw [splitBuf_line hnl]
      rfl
    simp [readNew, this, htr]
  · simp [readNew]

/-- Witness for fileTail_truncation_reset with a concrete truncated
  file and ban line. -/
theorem fileTail_truncation_reset_witness :
    readNew ("Ban 10.0.0.5".toList ++ ['\n']) ⟨0, []⟩ =
      (⟨13, []⟩, ["Ban 10.0.0.5".toList]) :=
  (fileTail_truncation_reset "ab".toList ⟨5, []⟩ 2 ("Ban 10.0.0.5".toList)
    (by decide) (by decide) (by decide) (by decide)).2.2.1

/-- C8: with no falsy address queued and the running count within the
  limit, the dispatch loop starts exactly the longest admissible prefix
  of the pending list — FIFO, only while the running count is strictly
  below the limit — leaving the rest pending, and the running count
  stays within the limit; a completion removes the finished job,
  records nothing above the limit, and dispatches the next pending
  addresses. -/
theorem scanQueue_bound_fifo (s : ScanQueue) (ip : String) (t : Nat)
    (hq : "" ∉ s.q) (hinv : s.runningJobs.length ≤ s.conc)
    (hip : ip ∈ s.runningJobs) :
    (ScanQueue.dispatch s =
      ({ s with runningJobs := s.runningJobs ++ s.q.take (s.conc - s.runningJobs.length),
                q := s.q.drop (s.conc - s.runningJobs.length) },
       s.q.take (s.conc - s.runningJobs.length)) ∧
     (ScanQueue.dispatch s).1.runningJobs.length ≤ s.conc) ∧
    ((ScanQueue.complete ip t s).2 =
      s.q.take (s.conc - (s.runningJobs.length - 1)) ∧
     (ScanQueue.complete ip t s).1.runningJobs =
      s.runningJobs.erase ip ++ s.q.take (s.conc - (s.runningJobs.length - 1)) ∧
     (ScanQueue.complete ip t s).1.runningJobs.length ≤ s.conc) := by
  have hd := dispatchList_take_drop s.conc s.q s.runningJobs hq hinv
  have hlerase : (s.runningJobs.erase ip).length = s.runningJobs.length - 1 :=
    List.length_erase_of_mem hip
  have hpos : 0 < s.runningJobs.length := List.length_pos_of_mem hip
  have hde := dispatchList_take_drop s.conc s.q (s.runningJobs.erase ip)
    hq (by omega)
  refine ⟨⟨?_, ?_⟩, ?_, ?_, ?_⟩
  · simp [ScanQueue.dispatch, hd]
  · simp only [ScanQueue.dispatch, hd, List.length_append, List.length_take]
    omega
  · simp [ScanQueue.complete, saveQ, ScanQueue.dispatch, hde, hlerase]
  · simp [ScanQueue.complete, saveQ, ScanQueue.dispatch, hde, hlerase]
  · simp only [ScanQueue.complete, saveQ, ScanQueue.dispatch, hde, hlerase,
      List.length_append, List.length_take]
    omega

/-- Witness for scanQueue_bound_fifo on a queue of limit two with one
  running job and three pending. -/
theorem scanQueue_bound_fifo_witness :
    (ScanQueue.dispatch w8s).1.runningJobs.length ≤ w8s.conc :=
  ((scanQueue_bound_fifo w8s "9.9.9.9" 7 (by decide) (by decide)
    (by decide)).1).2

/-- C9: the partial-line buffer survives the truncation reset.  Reading
  the old newline-less content buffers it as a fragment; after the file
  is replaced by shorter content, the next pass delivers a line that is
  the old fragment concatenated with the start of the new content — a
  line occurring in neither version of the file. -/
theorem fileTail_buffer_merge :
    readNew c9old ⟨0, []⟩ = (⟨15, c9old⟩, []) ∧
    readNew c9new (⟨15, c9old⟩ : TailState) =
      (⟨12, []⟩, [c9old ++ "Ban 7.7.7.7".toList]) ∧
    containsSeg c9old (c9old ++ "Ban 7.7.7.7".toList) = false ∧
    containsSeg c9new (c9old ++ "Ban 7.7.7.7".toList) = false := by decide

/-- C10: on a ban line whose only colon-separated token is the time of
  day 10:00:00 — a line with no IPv4-looking substring anywhere —
  extract returns that token rather than nothing (the loose IPv6
  pattern accepts it), and the daemon line handler enqueues it as an
  address and starts a scan of it. -/
theorem time_token_extracted :
    banRe timeLine = true ∧
    hasQuad timeLine = false ∧
    extractIpFromLine timeLine = some ("10:00:00".toList) ∧
    onLineModel 0 timeLine (initQueue 1) =
      (⟨1, ["10:00:00"], [], ["10:00:00"], ["10:00:00"], [],
        ⟨["10:00:00"], []⟩⟩, ["10:00:00"]) := by decide

/-- Witness for open_ports_exact on a concrete artifact with a failed
  nmap outcome. -/
theorem open_ports_exact_witness :
    (performScanModel "10.0.0.5" (Except.error "killed") true true
      (some "80/tcp open http\n22/tcp closed\n".toList)).open_ports =
      ((splitCRLF "80/tcp open http\n22/tcp closed\n".toList).filter
        portLine).map trimJS :=
  (open_ports_exact "10.0.0.5" (Except.error "killed") (Except.ok 0) true true
    "80/tcp open http\n22/tcp closed\n".toList).2.1
